import Mathlib

/-!
Shallow embedding of the sequence container `String<T>` from `src/lb4.cpp`
(a heap-backed, exactly-sized, exception-safe generic string with an
operator algebra), together with theorems settling the specification
claims about it.

Modelling conventions:
* The C++ object state is the pair (data pointer, length).  The code
  maintains the invariant that the allocated extent always equals the
  stored length, so the state is modelled as `data : Option (List T)`:
  `none` is a null `data` pointer, `some l` is an allocation of extent
  `l.length` holding the elements `l`, and the stored `length` field is
  recovered as the length of that list.  Note that `new T[0]` in C++
  returns a distinct non-null pointer, which is modelled as `some []`.
* Throwing operations return `Except StrError _`.
* Pointers into a buffer are modelled as natural-number offsets together
  with a read function `mem : Nat -> T` giving the element at each offset.
* The aliasing test `this != &other` in the assignment operators is
  modelled by an explicit `aliased : Bool` argument; a caller passes
  `true` exactly when both arguments denote the same object (and hence
  passes the same state for both).
-/

namespace Lb4

/-- Error taxonomy of `src/lb4.cpp`: `OutOfRangeException` carries the
offending index, `InvalidRangeException` carries nothing. -/
inductive StrError where
  | outOfRange (index : Nat)
  | invalidRange
deriving DecidableEq, Repr

/-- State of a `String<T>` object: `data = none` models a null `data`
pointer with `length = 0`; `data = some l` models an allocation of extent
`l.length` holding elements `l`, with `length = l.length`. -/
structure String (T : Type) where
  data : Option (List T)
deriving DecidableEq, Repr

namespace String

variable {T : Type}

/-- The elements currently stored (empty for a null pointer). -/
def toList (s : String T) : List T :=
  match s.data with
  | none => []
  | some l => l

/-- `size()`: the stored `length` field (always equal to the element count). -/
def size (s : String T) : Nat := s.toList.length

/-- Raw read `data[i]`, as performed by the code after its bounds checks;
out-of-extent reads never happen on checked paths. -/
def elem [Inhabited T] (s : String T) (i : Nat) : T :=
  s.toList.getD i default

/-- Private helper `copy_from(source, len)`: allocates `new T[len]` (non-null
even for `len = 0`) and copies the `len` elements. -/
def copy_from (source : List T) : String T :=
  ⟨some source⟩

/-- Default constructor `String()`: null pointer, zero length. -/
def mkDefault : String T := ⟨none⟩

/-- Copy constructor `String(const String&)`: `copy_from(other.data, other.length)`. -/
def mkCopy (other : String T) : String T :=
  copy_from other.toList

/-- Move constructor `String(String&&)`: steals the pointer and length and
nulls the source.  Returns (constructed object, source afterwards). -/
def mkMove (other : String T) : String T × String T :=
  (⟨other.data⟩, ⟨none⟩)

/-- Fill constructor `String(size_t count, const T& ch)`: `new T[count]`
filled with `ch` (non-null even for `count = 0`). -/
def mkFill (count : Nat) (ch : T) : String T :=
  ⟨some (List.replicate count ch)⟩

/-- Range constructor `String(const T* begin, const T* end)`: throws
`InvalidRangeException` when `begin > end`, otherwise copies the
`end - begin` elements starting at `begin`.  Pointers are modelled as
offsets `b`, `e` into the buffer read by `mem`. -/
def mkRange (b e : Nat) (mem : Nat → T) : Except StrError (String T) :=
  if b > e then .error .invalidRange
  else .ok (copy_from ((List.range (e - b)).map (fun i => mem (b + i))))

/-- Copy assignment `operator=(const String&)`: a no-op when `this == &other`
(modelled by `aliased`), otherwise frees and re-copies.  Returns the new
state of `*this` (the source is untouched). -/
def copyAssign (self other : String T) (aliased : Bool) : String T :=
  if aliased then self else copy_from other.toList

/-- Move assignment `operator=(String&&)`: a no-op when `this == &other`
(modelled by `aliased`), otherwise frees `*this`, steals the pointer and
length, and nulls the source.  Returns (new `*this`, source afterwards). -/
def moveAssign (self other : String T) (aliased : Bool) : String T × String T :=
  if aliased then (self, other) else (⟨other.data⟩, ⟨none⟩)

/-- `clear()`: frees the array, nulls the pointer, zeroes the length. -/
def clear (_s : String T) : String T := ⟨none⟩

/-- Checked element access `operator[]` (both overloads): throws
`OutOfRangeException(index)` when `index >= length`, else yields `data[index]`. -/
def opIndex [Inhabited T] (s : String T) (index : Nat) : Except StrError T :=
  if index ≥ s.size then .error (.outOfRange index)
  else .ok (elem s index)

/-- `substr(start, len)`: throws `OutOfRangeException(start)` when
`start > length`; else clamps to `actualLen = min len (length - start)` and
builds `String(data + start, data + start + actualLen)` via the range
constructor, reading from this object's buffer. -/
def substr [Inhabited T] (s : String T) (start len : Nat) :
    Except StrError (String T) :=
  if start > s.size then .error (.outOfRange start)
  else
    mkRange start (start + min len (s.size - start)) (fun i => elem s i)

/-- Concatenation `operator+(const String&)`: allocates
`new T[length + other.length]`, copies the receiver then `other`. -/
def add (s other : String T) : String T :=
  ⟨some (s.toList ++ other.toList)⟩

/-- The element-wise copying transformation `transformed` (both the generic
overload and the `Transformer<T>&` overload, which delegates to it):
allocates `new T[length]` and writes `transformer(data[i])` at each index.
Returns (result, receiver after the call); the method is `const` and never
writes to the receiver's fields. -/
def transformedRun (s : String T) (transformer : T → T) :
    String T × String T :=
  (⟨some (s.toList.map transformer)⟩, s)

/-- Tiling helper for repetition: the double loop of `operator*` writes
copy `t` of the source at offset `t * length`, for `t = 0, ..., times-1`. -/
def tileList (l : List T) : Nat → List T
  | 0 => []
  | n + 1 => l ++ tileList l n

/-- Repetition `operator*(const String<T>& s, int times)`: non-positive
`times` returns a default-constructed (null) string; otherwise allocates
`new T[s.length * times]` and tiles `s` that many times. -/
def mul (s : String T) (times : Int) : String T :=
  if times ≤ 0 then mkDefault
  else ⟨some (tileList s.toList times.toNat)⟩

/-- Element-wise equality test of `operator==`: lengths first, then the
elements in index order (translated to structural recursion). -/
def eqList [DecidableEq T] : List T → List T → Bool
  | [], [] => true
  | [], _ :: _ => false
  | _ :: _, [] => false
  | x :: xs, y :: ys => if x ≠ y then false else eqList xs ys

/-- `operator==`: false on unequal lengths, else element-wise comparison. -/
def eqOp [DecidableEq T] (a b : String T) : Bool :=
  eqList a.toList b.toList

/-- Loop of `operator<`: compare pairwise up to the shorter length (first
strict mismatch decides), then fall back to `a.length < b.length`
(translated to structural recursion). -/
def ltList [LinearOrder T] : List T → List T → Bool
  | [], [] => false
  | [], _ :: _ => true
  | _ :: _, [] => false
  | x :: xs, y :: ys =>
      if x < y then true else if y < x then false else ltList xs ys

/-- `operator<`: lexicographic comparison of the element lists. -/
def ltOp [LinearOrder T] (a b : String T) : Bool :=
  ltList a.toList b.toList

/-- `operator>`: defined as `b < a`. -/
def gtOp [LinearOrder T] (a b : String T) : Bool := ltOp b a

/-- `operator<=`: defined as `!(a > b)`. -/
def leOp [LinearOrder T] (a b : String T) : Bool := !(gtOp a b)

/-- `operator>=`: defined as `!(a < b)`. -/
def geOp [LinearOrder T] (a b : String T) : Bool := !(ltOp a b)

/-- Whether a throwing operation returned normally. -/
def exceptOk {α : Type} (x : Except StrError α) : Bool :=
  match x with
  | .ok _ => true
  | .error _ => false

end String

/-! Helper lemmas. -/

/-- In-bounds `getD` agrees with positional access. -/
theorem getD_of_lt {T : Type} (l : List T) (d : T) (i : Nat) (h : i < l.length) :
    l.getD i d = l.get ⟨i, h⟩ := by
  rw [List.getD_eq_getElem l d h]
  simp

/-- Unfolding lemma for `toList` on a non-null state. -/
theorem toList_mk_some {T : Type} (l : List T) :
    (String.mk (some l) : String T).toList = l := rfl

/-- Unfolding lemma for `size` on a non-null state. -/
theorem size_mk_some {T : Type} (l : List T) :
    (String.mk (some l) : String T).size = l.length := rfl

/-- Unfolding lemma for `elem` on a non-null state. -/
theorem elem_mk_some {T : Type} [Inhabited T] (l : List T) (i : Nat) :
    (String.mk (some l) : String T).elem i = l.getD i default := rfl

/-- A well-ordered range constructor call returns normally with the copied
slice. -/
theorem mkRange_ok {T : Type} (mem : Nat → T) (b e : Nat) (h : b ≤ e) :
    String.mkRange b e mem =
      .ok (String.copy_from ((List.range (e - b)).map (fun i => mem (b + i)))) := by
  simp [String.mkRange, Nat.not_lt.mpr h]

/-- Reading a copied arithmetic range at an in-bounds offset. -/
theorem elem_copy_from_range {T : Type} [Inhabited T] (f : Nat → T) (n i : Nat)
    (hi : i < n) :
    (String.copy_from ((List.range n).map f)).elem i = f i := by
  have hlen : i < ((List.range n).map f).length := by simpa using hi
  simp only [String.elem, String.copy_from, String.toList]
  rw [List.getD_eq_getElem _ _ hlen]
  simp

/-- The tiling of the repetition loop has the expected total length. -/
theorem tileList_length {T : Type} (l : List T) (n : Nat) :
    (String.tileList l n).length = n * l.length := by
  induction n with
  | zero => simp [String.tileList]
  | succ k ih =>
    simp [String.tileList, ih, Nat.succ_mul, Nat.add_comm]

/-- Reading the tiling at offset `k * l.length + i` yields element `i` of the
source, for every in-range copy `k` and offset `i`. -/
theorem tileList_elem {T : Type} [Inhabited T] (l : List T) (n k i : Nat)
    (hk : k < n) (hi : i < l.length) :
    (String.tileList l n).getD (k * l.length + i) default = l.getD i default := by
  induction n generalizing k with
  | zero => omega
  | succ m ih =>
    cases k with
    | zero =>
      simp only [String.tileList, Nat.zero_mul, Nat.zero_add]
      exact List.getD_append _ _ _ _ hi
    | succ k2 =>
      have hoff : (k2 + 1) * l.length + i = l.length + (k2 * l.length + i) := by
        ring
      rw [String.tileList, hoff, List.getD_append_right _ _ _ _ (by omega)]
      simpa using ih k2 (by omega)

/-- The element-wise equality loop decides list equality. -/
theorem eqList_iff_eq {T : Type} [DecidableEq T] :
    ∀ (a b : List T), String.eqList a b = true ↔ a = b
  | [], [] => by simp [String.eqList]
  | [], _ :: _ => by simp [String.eqList]
  | _ :: _, [] => by simp [String.eqList]
  | x :: xs, y :: ys => by
      by_cases hxy : x = y
      · subst hxy
        simp [String.eqList, eqList_iff_eq xs ys]
      · simp [String.eqList, hxy]

/-- Transitivity of the lexicographic comparison loop over a linearly
ordered element type. -/
theorem ltList_trans {T : Type} [LinearOrder T] :
    ∀ (a b c : List T), String.ltList a b = true → String.ltList b c = true →
      String.ltList a c = true
  | [], b, c, hab, hbc => by
      cases b with
      | nil => simp [String.ltList] at hab
      | cons y ys =>
        cases c with
        | nil => simp [String.ltList] at hbc
        | cons z zs => simp [String.ltList]
  | x :: xs, b, c, hab, hbc => by
      cases b with
      | nil => simp [String.ltList] at hab
      | cons y ys =>
        cases c with
        | nil => simp [String.ltList] at hbc
        | cons z zs =>
          simp only [String.ltList] at hab hbc ⊢
          rcases lt_trichotomy x y with hxy | hxy | hxy
          · rcases lt_trichotomy y z with hyz | hyz | hyz
            · simp [lt_trans hxy hyz]
            · subst hyz
              simp [hxy]
            · simp [not_lt_of_gt hyz, hyz] at hbc
          · subst hxy
            simp [lt_irrefl] at hab
            rcases lt_trichotomy x z with hxz | hxz | hxz
            · simp [hxz]
            · subst hxz
              simp [lt_irrefl] at hbc ⊢
              exact ltList_trans xs ys zs hab hbc
            · simp [not_lt_of_gt hxz, hxz] at hbc
          · simp [not_lt_of_gt hxy, hxy] at hab

/-- The element-wise equality loop holds exactly when the lexicographic
comparison loop rejects both orders. -/
theorem eqList_iff_not_lt {T : Type} [LinearOrder T] [DecidableEq T] :
    ∀ (a b : List T), String.eqList a b = true ↔
      (String.ltList a b = false ∧ String.ltList b a = false)
  | [], [] => by simp [String.eqList, String.ltList]
  | [], _ :: _ => by simp [String.eqList, String.ltList]
  | _ :: _, [] => by simp [String.eqList, String.ltList]
  | x :: xs, y :: ys => by
      rcases lt_trichotomy x y with hxy | hxy | hxy
      · simp [String.eqList, String.ltList, hxy, ne_of_lt hxy, not_lt_of_gt hxy]
      · subst hxy
        simp [String.eqList, String.ltList, lt_irrefl, eqList_iff_not_lt xs ys]
      · simp [String.eqList, String.ltList, hxy, (ne_of_lt hxy).symm,
          not_lt_of_gt hxy]

/-- C2 counterexample: fill construction with count 0 and copy construction
from an empty sequence both execute `new T[0]`, leaving a zero-length
sequence whose data pointer is not null — contradicting the claim that every
length-0 sequence holds no backing allocation. -/
theorem c2_zero_len_nonnull_counterexample :
    (String.mkFill 0 (0 : Nat)).size = 0 ∧
    (String.mkFill 0 (0 : Nat)).data ≠ none ∧
    (String.mkCopy (String.mkDefault : String Nat)).size = 0 ∧
    (String.mkCopy (String.mkDefault : String Nat)).data ≠ none := by
  refine ⟨rfl, ?_, rfl, ?_⟩ <;> decide

/-- C2 (amended): the data pointer is null after default construction,
`clear`, and being the source of a move; but fill construction with count 0
and copying an empty sequence produce zero-length sequences backed by a
zero-extent non-null allocation. -/
theorem c2_empty_null_amended (T : Type) (s : String T) (ch : T) :
    (String.mkDefault : String T).data = none ∧
    s.clear.data = none ∧
    (String.mkMove s).2.data = none ∧
    (String.mkFill 0 ch).data = some [] ∧
    (String.mkCopy (String.mkDefault : String T)).data = some [] ∧
    (String.mkFill 0 ch).size = 0 ∧
    (String.mkCopy (String.mkDefault : String T)).size = 0 :=
  ⟨rfl, rfl, rfl, rfl, rfl, rfl, rfl⟩

/-- C3: element access throws `OutOfRange` exactly when the index is at or
past the length, and otherwise returns the stored element at that index. -/
theorem c3_opIndex_spec (T : Type) [Inhabited T] (a : String T) (i : Nat) :
    (i ≥ a.size → a.opIndex i = .error (.outOfRange i)) ∧
    (∀ h : i < a.size, a.opIndex i = .ok (a.toList.get ⟨i, h⟩)) := by
  constructor
  · intro h
    simp [String.opIndex, h]
  · intro h
    simp only [String.opIndex, Nat.not_le.mpr h, ge_iff_le, if_neg (Nat.not_le.mpr h)]
    exact congrArg Except.ok (getD_of_lt _ _ _ h)

/-- C3 witness: `at(5)` on a length-3 sequence raises OutOfRange. -/
theorem c3_opIndex_witness :
    (String.mk (some [9, 8, 7]) : String Nat).opIndex 5 =
      .error (.outOfRange 5) :=
  (c3_opIndex_spec Nat ⟨some [9, 8, 7]⟩ 5).1 (by decide)

/-- C4: the range constructor throws `InvalidRange` exactly when the lower
bound is past the upper bound; a degenerate equal pair yields an empty
sequence with no error; otherwise it yields `e - b` elements copied in
order from the buffer. -/
theorem c4_mkRange_spec (T : Type) [Inhabited T] (mem : Nat → T) (b e : Nat) :
    (String.mkRange b e mem = (.error .invalidRange : Except StrError (String T))
        ↔ b > e) ∧
    (b ≤ e → String.exceptOk (String.mkRange b e mem : Except StrError (String T))
        = true) ∧
    (∀ r : String T, String.mkRange b e mem = .ok r →
      r.size = e - b ∧
      (b = e → r.size = 0) ∧
      (∀ i, i < e - b → r.elem i = mem (b + i))) := by
  refine ⟨?_, ?_, ?_⟩
  · constructor
    · intro h
      by_contra hbe
      simp [String.mkRange, hbe] at h
    · intro h
      simp [String.mkRange, h]
  · intro h
    simp [String.mkRange, Nat.not_lt.mpr h, String.exceptOk]
  · intro r hr
    have hbe : ¬ b > e := by
      intro h
      simp [String.mkRange, h] at hr
    simp only [String.mkRange, if_neg hbe] at hr
    cases hr
    refine ⟨by simp [String.size, String.copy_from, String.toList], ?_, ?_⟩
    · intro h
      simp [String.size, String.copy_from, String.toList, h]
    · intro i hi
      have hlen : i < ((List.range (e - b)).map (fun j => mem (b + j))).length := by
        simpa using hi
      simp only [String.elem, String.copy_from, String.toList]
      rw [List.getD_eq_getElem _ _ hlen]
      simp

/-- C4 witness: a reversed range raises InvalidRange. -/
theorem c4_mkRange_witness :
    String.mkRange 5 2 (fun i => i + 10) =
      (.error .invalidRange : Except StrError (String Nat)) :=
  (c4_mkRange_spec Nat (fun i => i + 10) 5 2).1.mpr (by decide)

/-- C9 counterexample: move-assigning a nonempty sequence to itself takes
the `this == &other` branch and leaves the object — the source of the
move — unchanged and nonempty, contradicting the claim that the source of
every move-assignment ends up empty. -/
theorem c9_self_move_counterexample :
    (String.moveAssign (⟨some [1]⟩ : String Nat) ⟨some [1]⟩ true).2.size ≠ 0 := by
  decide

/-- C9 (amended): move construction, and move assignment between distinct
objects, transfer the length and elements to the destination and leave the
source in the empty (null) state; self-move-assignment instead leaves the
object unchanged. -/
theorem c9_move_spec (T : Type) (a b : String T) :
    (String.mkMove a).1.toList = a.toList ∧
    (String.mkMove a).2.size = 0 ∧
    (String.mkMove a).2.data = none ∧
    (String.moveAssign b a false).1.toList = a.toList ∧
    (String.moveAssign b a false).2.size = 0 ∧
    (String.moveAssign b a false).2.data = none ∧
    (String.moveAssign a a true).1 = a :=
  ⟨rfl, rfl, rfl, rfl, rfl, rfl, rfl⟩

/-- C10: self-assignment, copy or move, takes the `this != &other` guard's
no-op branch and leaves the object exactly as it was. -/
theorem c10_self_assign_spec (T : Type) (a : String T) :
    String.copyAssign a a true = a ∧
    (String.moveAssign a a true).1 = a ∧
    (String.moveAssign a a true).2 = a :=
  ⟨rfl, rfl, rfl⟩

/-- C1: `substr(start, len)` throws `OutOfRange(start)` exactly when
`start > length`; with `start <= length` it returns normally, yielding a
fresh sequence of `min len (length - start)` elements whose element `i` is
the receiver's element `start + i`; `start = length` yields an empty result
for any `len`. -/
theorem c1_substr_spec (T : Type) [Inhabited T] (a : String T) (start len : Nat) :
    (a.substr start len = .error (.outOfRange start) ↔ start > a.size) ∧
    (start ≤ a.size → String.exceptOk (a.substr start len) = true) ∧
    (∀ r, a.substr start len = .ok r →
      r.size = min len (a.size - start) ∧
      (start = a.size → r.size = 0) ∧
      (∀ i, i < r.size → r.elem i = a.elem (start + i))) := by
  by_cases hgt : start > a.size
  · have herr : a.substr start len = .error (.outOfRange start) := by
      simp [String.substr, hgt]
    refine ⟨⟨fun _ => hgt, fun _ => herr⟩, fun hle => absurd hgt (Nat.not_lt.mpr hle), ?_⟩
    intro r hr
    rw [herr] at hr
    cases hr
  · have hsub : a.substr start len =
        .ok (String.copy_from ((List.range (min len (a.size - start))).map
          (fun i => a.elem (start + i)))) := by
      simp only [String.substr, if_neg hgt]
      rw [mkRange_ok _ _ _ (Nat.le_add_right _ _)]
      simp [Nat.add_sub_cancel_left]
    refine ⟨⟨?_, fun h => absurd h hgt⟩, fun _ => by rw [hsub]; rfl, ?_⟩
    · intro h
      rw [hsub] at h
      cases h
    · intro r hr
      rw [hsub] at hr
      injection hr with h
      subst h
      refine ⟨by simp [String.size, String.copy_from, String.toList], ?_, ?_⟩
      · intro h
        simp [String.size, String.copy_from, String.toList, h]
      · intro i hi
        have hi2 : i < min len (a.size - start) := by
          simpa [String.size, String.copy_from, String.toList] using hi
        exact elem_copy_from_range _ _ _ hi2

/-- C1 witness: an in-range slice with an overlong requested length returns
normally. -/
theorem c1_substr_witness :
    String.exceptOk ((⟨some [5, 6, 7]⟩ : String Nat).substr 1 9) = true :=
  (c1_substr_spec Nat ⟨some [5, 6, 7]⟩ 1 9).2.1 (by decide)

/-- C5: repetition with a non-positive count yields a default-constructed
(empty) sequence with no error; with a positive count it yields
`a.size * times` elements tiled so that element `k * a.size + i` is the
source's element `i`. -/
theorem c5_mul_spec (T : Type) [Inhabited T] (a : String T) (t : Int) :
    (t ≤ 0 → a.mul t = String.mkDefault ∧ (a.mul t).size = 0) ∧
    (0 < t →
      (a.mul t).size = a.size * t.toNat ∧
      (∀ k i, k < t.toNat → i < a.size →
        (a.mul t).elem (k * a.size + i) = a.elem i)) := by
  constructor
  · intro h
    have h1 : a.mul t = String.mkDefault := by simp [String.mul, h]
    exact ⟨h1, by rw [h1]; rfl⟩
  · intro h
    have hneg : ¬ t ≤ 0 := by omega
    simp only [String.mul, if_neg hneg]
    constructor
    · show (String.mk (some (String.tileList a.toList t.toNat)) : String T).size
        = a.size * t.toNat
      rw [size_mk_some, tileList_length, Nat.mul_comm]
      rfl
    · intro k i hk hi
      simp only [elem_mk_some]
      exact tileList_elem a.toList t.toNat k i hk hi

/-- C5 witness: repeating a length-2 sequence three times has size 6. -/
theorem c5_mul_witness :
    ((⟨some [1, 2]⟩ : String Nat).mul 3).size =
      (⟨some [1, 2]⟩ : String Nat).size * (3 : Int).toNat :=
  ((c5_mul_spec Nat ⟨some [1, 2]⟩ 3).2 (by decide)).1

/-- C7: concatenation is total, associative up to `operator==`, has the
empty sequence as a right identity up to `operator==`, and yields
`a.size + b.size` elements: `a`'s elements first, then `b`'s. -/
theorem c7_add_spec (T : Type) [DecidableEq T] [Inhabited T] (a b c : String T) :
    String.eqOp (String.add (String.add a b) c) (String.add a (String.add b c)) = true ∧
    String.eqOp (String.add a String.mkDefault) a = true ∧
    (String.add a b).size = a.size + b.size ∧
    (∀ i, i < a.size → (String.add a b).elem i = a.elem i) ∧
    (∀ i, i < b.size → (String.add a b).elem (a.size + i) = b.elem i) := by
  refine ⟨?_, ?_, ?_, ?_, ?_⟩
  · show String.eqList ((a.toList ++ b.toList) ++ c.toList)
      (a.toList ++ (b.toList ++ c.toList)) = true
    exact (eqList_iff_eq _ _).mpr (List.append_assoc _ _ _)
  · show String.eqList (a.toList ++ []) a.toList = true
    exact (eqList_iff_eq _ _).mpr (List.append_nil _)
  · simp [String.add, String.size, toList_mk_some]
  · intro i hi
    show (a.toList ++ b.toList).getD i default = a.toList.getD i default
    exact List.getD_append _ _ _ _ hi
  · intro i hi
    show (a.toList ++ b.toList).getD (a.size + i) default = b.toList.getD i default
    rw [List.getD_append_right a.toList b.toList default (a.size + i)
      (show a.toList.length ≤ a.size + i from Nat.le_add_right _ _)]
    simp [String.size]

/-- C7 witness: the first element of a concrete concatenation is the first
element of the left operand. -/
theorem c7_add_witness :
    (String.add (⟨some [1, 2]⟩ : String Nat) ⟨some [3]⟩).elem 0 =
      (⟨some [1, 2]⟩ : String Nat).elem 0 :=
  (c7_add_spec Nat ⟨some [1, 2]⟩ ⟨some [3]⟩ ⟨some []⟩).2.2.2.1 0 (by decide)

/-- C8: the copying transformation leaves the receiver unmodified and
returns a fresh sequence of the same length whose element `i` is the
transformer applied to the receiver's element `i`. -/
theorem c8_transformed_spec (T : Type) [Inhabited T] (s : String T) (f : T → T) :
    (String.transformedRun s f).2 = s ∧
    (String.transformedRun s f).1.size = s.size ∧
    (∀ i, i < s.size → (String.transformedRun s f).1.elem i = f (s.elem i)) := by
  refine ⟨rfl, by simp [String.transformedRun, String.size, toList_mk_some], ?_⟩
  intro i hi
  show (s.toList.map f).getD i default = f (s.toList.getD i default)
  have h1 : i < (s.toList.map f).length := by simpa using hi
  rw [List.getD_eq_getElem _ _ h1, List.getD_eq_getElem _ _ hi]
  simp

/-- C6: over a linearly ordered element type the comparison operators form
a strict order — `<` is transitive, `==` holds exactly when neither `<`
direction does — and `>`, `<=`, `>=` are the swap of `<` and the negations
of `>` and `<` respectively. -/
theorem c6_order_spec (T : Type) [LinearOrder T] [DecidableEq T]
    (a b c : String T) :
    (String.ltOp a b = true → String.ltOp b c = true →
      String.ltOp a c = true) ∧
    (String.eqOp a b = true ↔
      (String.ltOp a b = false ∧ String.ltOp b a = false)) ∧
    String.gtOp a b = String.ltOp b a ∧
    String.leOp a b = !(String.gtOp a b) ∧
    String.geOp a b = !(String.ltOp a b) := by
  refine ⟨?_, ?_, rfl, rfl, rfl⟩
  · exact ltList_trans a.toList b.toList c.toList
  · exact eqList_iff_not_lt a.toList b.toList

/-- C6 witness: transitivity applied to three concrete sequences. -/
theorem c6_order_witness :
    String.ltOp (⟨some [1]⟩ : String Nat) ⟨some [2]⟩ = true :=
  (c6_order_spec Nat ⟨some [1]⟩ ⟨some [1, 2]⟩ ⟨some [2]⟩).1 (by decide) (by decide)

/-- C8 witness: the transformation applied at index 1 of a concrete
sequence. -/
theorem c8_transformed_witness :
    (String.transformedRun (⟨some [1, 2]⟩ : String Nat) (fun x => x + 1)).1.elem 1 =
      (fun x : Nat => x + 1) ((⟨some [1, 2]⟩ : String Nat).elem 1) :=
  (c8_transformed_spec Nat ⟨some [1, 2]⟩ (fun x => x + 1)).2.2 1 (by decide)

end Lb4
